import Mathlib

/-!
Verification development for the Buildable AI backend core:
the provider routing/execution engine (`src/services/ai/models.ts`,
`src/services/ai/buildable-ai.ts`), the generation orchestrator
(`src/services/ai/pipeline.ts`) and the credits estimator
(`src/middleware/credits.ts`).

The TypeScript sources are shallowly embedded as pure Lean functions.
External effects (provider API calls, database writes, the validator and
coder AI services) are modelled as explicit oracle functions supplied as
arguments, so every definition is executable on concrete inputs.
Machine numbers are modelled as `Nat`/`Int`/`ℚ` (token counts and attempt
counters are small naturals in the source; money amounts are decimal
literals, modelled as exact rationals).
-/

namespace Buildable

/-! ## Character/string helpers

JavaScript `String.prototype.toLowerCase` and `String.prototype.includes`
are modelled on `List Char` so that they reduce inside the kernel. -/

/-- Model of `needle` being a prefix of `hay` (char lists). -/
def listStartsWith : List Char → List Char → Bool
  | _, [] => true
  | [], _ :: _ => false
  | a :: as, b :: bs => a == b && listStartsWith as bs

/-- Model of JavaScript `hay.includes(needle)` on char lists. -/
def listHasSub : List Char → List Char → Bool
  | [], needle => listStartsWith [] needle
  | a :: rest, needle => listStartsWith (a :: rest) needle || listHasSub rest needle

/-- Model of `s.toLowerCase()` (ASCII-level, as `Char.toLower`). -/
def lowerChars (s : String) : List Char :=
  s.data.map Char.toLower

/-- Model of `s.includes(sub)` for strings. -/
def strIncludes (s sub : String) : Bool :=
  listHasSub s.data sub.data

/-! ## `src/services/ai/models.ts` — providers, routing, availability, cost -/

/-- `enum AIProvider` from models.ts. -/
inductive AIProvider
  | grok
  | openai
  | gemini
deriving DecidableEq, Repr

/-- `enum TaskType` from models.ts. -/
inductive TaskType
  | planning
  | coding
  | debugging
  | reasoning
  | multimodal
  | validation
  | refinement
deriving DecidableEq, Repr

/-- A (provider, model) pair, the `fallback` shape in `ModelRouting`. -/
structure Candidate where
  provider : AIProvider
  model : String
deriving DecidableEq, Repr

/-- One entry of `ModelRouting`: primary provider/model plus optional fallback. -/
structure RoutingEntry where
  provider : AIProvider
  model : String
  fallback : Option Candidate
deriving DecidableEq, Repr

/-- The static `ModelRouting` table from models.ts, with the model-name
constants (`GrokModels`/`OpenAIModels`/`GeminiModels`) inlined. -/
def ModelRouting : TaskType → RoutingEntry
  | .planning =>
      { provider := .gemini, model := "gemini-2.5-pro",
        fallback := some ⟨.openai, "gpt-5-mini"⟩ }
  | .coding =>
      { provider := .grok, model := "grok-code-fast-1",
        fallback := some ⟨.openai, "gpt-5"⟩ }
  | .debugging =>
      { provider := .grok, model := "grok-code-fast-1",
        fallback := some ⟨.openai, "gpt-5-mini"⟩ }
  | .reasoning =>
      { provider := .openai, model := "gpt-5.2",
        fallback := some ⟨.gemini, "gemini-2.5-pro"⟩ }
  | .multimodal =>
      { provider := .gemini, model := "gemini-3-pro-preview",
        fallback := some ⟨.grok, "grok-vision-beta"⟩ }
  | .validation =>
      { provider := .grok, model := "grok-4.1-fast",
        fallback := some ⟨.openai, "gpt-5-nano"⟩ }
  | .refinement =>
      { provider := .openai, model := "gpt-5",
        fallback := some ⟨.grok, "grok-code-fast-1"⟩ }

/-- Presence of the three provider API keys in `env` (env.ts: the keys are
optional strings; `isProviderAvailable` tests truthiness). -/
structure EnvKeys where
  grokKey : Bool
  openaiKey : Bool
  geminiKey : Bool
deriving DecidableEq, Repr

/-- `isProviderAvailable` from models.ts: a provider is available iff its
API key is configured. -/
def isProviderAvailable (keys : EnvKeys) : AIProvider → Bool
  | .grok => keys.grokKey
  | .openai => keys.openaiKey
  | .gemini => keys.geminiKey

/-- `TokenCosts` from models.ts: cost per 1K tokens, (input, output). -/
def TokenCosts : AIProvider → ℚ × ℚ
  | .grok => (1/1000, 2/1000)
  | .openai => (3/1000, 6/1000)
  | .gemini => (1/2000, 1/1000)

/-- `estimateCost(provider, inputTokens, outputTokens)` from models.ts. -/
def estimateCost (provider : AIProvider) (inputTokens outputTokens : ℕ) : ℚ :=
  let costs := TokenCosts provider
  (inputTokens / 1000 * costs.1) + (outputTokens / 1000 * costs.2)

/-! ## `src/middleware/credits.ts` — credit estimation -/

/-- The `complexity` classification of an estimate. -/
inductive Complexity
  | low
  | medium
  | high
deriving DecidableEq, Repr

/-- Default of `env.CREDITS_COST_MULTIPLIER` (env.ts: `.default(0.001)`). -/
def CREDITS_COST_MULTIPLIER : ℚ := 1/1000

/-- The `multipliers` object `{ low: 1, medium: 1.5, high: 2 }`. -/
def complexityMultiplier : Complexity → ℚ
  | .low => 1
  | .medium => 3/2
  | .high => 2

/-- The complexity branch of `estimateCredits`: starts at `medium`, becomes
`low` below 5000 tokens and `high` above 20000. -/
def complexityOf (estimatedTokens : ℕ) : Complexity :=
  if estimatedTokens < 5000 then .low
  else if estimatedTokens > 20000 then .high
  else .medium

/-- Result record of `estimateCredits`. -/
structure CreditEstimate where
  estimatedTokens : ℕ
  estimatedCredits : ℤ
  complexity : Complexity
deriving DecidableEq, Repr

/-- `estimateCredits(prompt, filesCount)` from credits.ts.
`Math.ceil(prompt.length / 4)` is ceiling division; the JavaScript
expression `filesCount || 5` yields 5 exactly when `filesCount` is 0. -/
def estimateCredits (prompt : String) (filesCount : ℕ) : CreditEstimate :=
  let promptTokens := (prompt.length + 3) / 4
  let outputTokensPerFile := 1500
  let contextTokens := filesCount * 500
  let estimatedTokens :=
    promptTokens + contextTokens +
      (if filesCount = 0 then 5 else filesCount) * outputTokensPerFile
  let complexity := complexityOf estimatedTokens
  let estimatedCredits : ℤ :=
    ⌈(estimatedTokens : ℚ) * CREDITS_COST_MULTIPLIER * complexityMultiplier complexity⌉
  { estimatedTokens := estimatedTokens, estimatedCredits := estimatedCredits,
    complexity := complexity }

/-! ## `src/services/ai/buildable-ai.ts` — unified execution engine

A provider-specific call (`executeGrok`/`executeOpenAI`/`executeGemini`)
either resolves with content and token usage or rejects with an `Error`.
We model the family of such calls as an oracle
`AIProvider → String → ℕ → AttemptResult` (provider, model, 0-based attempt
index), which fixes the outcome of each attempt. -/

/-- A thrown JavaScript `Error`, reduced to its message. -/
structure ThrownError where
  message : String
deriving DecidableEq, Repr

/-- What one provider-specific call produces on success: the content and
the usage counts read off the provider response. -/
structure ProviderCallOut where
  content : String
  inputTokens : ℕ
  outputTokens : ℕ
  totalTokens : ℕ
deriving DecidableEq, Repr

/-- Outcome of a single provider-specific call. -/
inductive AttemptResult
  | success (out : ProviderCallOut)
  | failure (e : ThrownError)
deriving DecidableEq, Repr

/-- `BuildableAIResponse` without `latencyMs`: what `executeWithProvider`
returns on success. -/
structure AIResponse where
  content : String
  provider : AIProvider
  model : String
  inputTokens : ℕ
  outputTokens : ℕ
  totalTokens : ℕ
  cost : ℚ
deriving DecidableEq, Repr

/-- Build the success response the provider executors return: the
`provider`/`model` fields are the ones the call was made with, and cost
comes from `estimateCost`. -/
def mkResponse (provider : AIProvider) (model : String) (out : ProviderCallOut) :
    AIResponse :=
  { content := out.content, provider := provider, model := model,
    inputTokens := out.inputTokens, outputTokens := out.outputTokens,
    totalTokens := out.totalTokens,
    cost := estimateCost provider out.inputTokens out.outputTokens }

/-- Result of `executeWithProvider`/`execute`: fulfilled or rejected. -/
inductive ExecResult
  | ok (resp : AIResponse)
  | thrown (e : ThrownError)
deriving DecidableEq, Repr

/-- Whether an `ExecResult` is a fulfilled promise. -/
def ExecResult.isOk : ExecResult → Bool
  | .ok _ => true
  | .thrown _ => false

/-- Observable behaviour of one `executeWithProvider` run on a candidate:
how many provider-specific calls were attempted and which delays (ms) were
awaited between them. -/
structure CandidateTrace where
  attemptsMade : ℕ
  delays : List ℕ
deriving DecidableEq, Repr

/-- `isRateLimitError` from buildable-ai.ts: lowercases the message and
looks for the three throttling markers. (The `instanceof Error` guard is
always satisfied here because attempt failures carry an `Error`.) -/
def isRateLimitError (e : ThrownError) : Bool :=
  let m := lowerChars e.message
  listHasSub m "rate limit".data ||
  listHasSub m "429".data ||
  listHasSub m "too many requests".data

/-- Default of the `retryCount` constructor option (`?? 2`). -/
def defaultRetryCount : ℕ := 2

/-- Default of the `retryDelayMs` constructor option (`?? 1000`). -/
def defaultRetryDelayMs : ℕ := 1000

/-- The retry loop body of `executeWithProvider`.
`remaining` counts loop iterations left (the source loop runs `attempt`
from 0 through `retryCount`), `attempt` is the 0-based index of the next
attempt, `lastError` mirrors the mutable `lastError` variable, and
`delays` accumulates the awaited `retryDelayMs * (attempt + 1)` values. -/
def executeWithProviderAux (oracle : ℕ → AttemptResult) (provider : AIProvider)
    (model : String) (retryDelayMs : ℕ) :
    ℕ → ℕ → Option ThrownError → List ℕ → ExecResult × CandidateTrace
  | 0, attempt, lastError, delays =>
      (.thrown (lastError.getD ⟨"Unknown execution error"⟩), ⟨attempt, delays⟩)
  | remaining + 1, attempt, _, delays =>
      match oracle attempt with
      | .success out => (.ok (mkResponse provider model out), ⟨attempt + 1, delays⟩)
      | .failure e =>
          if isRateLimitError e then
            executeWithProviderAux oracle provider model retryDelayMs
              remaining (attempt + 1) (some e)
              (delays ++ [retryDelayMs * (attempt + 1)])
          else
            (.thrown e, ⟨attempt + 1, delays⟩)

/-- `executeWithProvider` from buildable-ai.ts: up to `retryCount + 1`
attempts against one candidate, retrying only on rate-limit failures. -/
def executeWithProvider (oracle : ℕ → AttemptResult) (provider : AIProvider)
    (model : String) (retryCount retryDelayMs : ℕ) : ExecResult × CandidateTrace :=
  executeWithProviderAux oracle provider model retryDelayMs (retryCount + 1) 0 none []

/-- Printed name of a task (the TypeScript enum values), used in the
`No available providers` error message. -/
def taskName : TaskType → String
  | .planning => "planning"
  | .coding => "coding"
  | .debugging => "debugging"
  | .reasoning => "reasoning"
  | .multimodal => "multimodal"
  | .validation => "validation"
  | .refinement => "refinement"

/-- The environment `execute` runs against: which API keys exist, and the
outcome of every potential provider-specific call. -/
structure ExecEnv where
  keys : EnvKeys
  call : AIProvider → String → ℕ → AttemptResult

/-- The fallback half of `execute`: runs after the primary candidate was
unavailable or failed. `tried` carries the candidate traces so far. -/
def executeFallbackStep (env : ExecEnv) (retryCount retryDelayMs : ℕ)
    (task : TaskType) (routing : RoutingEntry)
    (tried : List (Candidate × CandidateTrace)) :
    ExecResult × List (Candidate × CandidateTrace) :=
  match routing.fallback with
  | some fb =>
      if isProviderAvailable env.keys fb.provider then
        let r2 := executeWithProvider (env.call fb.provider fb.model)
          fb.provider fb.model retryCount retryDelayMs
        (r2.1, tried ++ [(fb, r2.2)])
      else
        (.thrown ⟨"No available providers for task: " ++ taskName task⟩, tried)
  | none =>
      (.thrown ⟨"No available providers for task: " ++ taskName task⟩, tried)

/-- `execute` from buildable-ai.ts: try the primary candidate of
`ModelRouting[task]` when its provider is available; on failure fall
through to the fallback candidate; rethrow the fallback error; throw
`No available providers` when no candidate could be attempted at all.
Besides the result we return the list of candidates actually attempted,
with their traces. -/
def execute (env : ExecEnv) (retryCount retryDelayMs : ℕ) (task : TaskType) :
    ExecResult × List (Candidate × CandidateTrace) :=
  let routing := ModelRouting task
  if isProviderAvailable env.keys routing.provider then
    let r1 := executeWithProvider (env.call routing.provider routing.model)
      routing.provider routing.model retryCount retryDelayMs
    match r1.1 with
    | .ok resp => (.ok resp, [(⟨routing.provider, routing.model⟩, r1.2)])
    | .thrown _ =>
        executeFallbackStep env retryCount retryDelayMs task routing
          [(⟨routing.provider, routing.model⟩, r1.2)]
  else
    executeFallbackStep env retryCount retryDelayMs task routing []

/-! ## `src/services/ai/pipeline.ts` — generation orchestrator -/

/-- One entry of `ProjectPlan.files` (and the coder's `FileSpec`). -/
structure FileSpec where
  path : String
  purpose : String
  dependencies : List String
  priority : Option ℤ
deriving DecidableEq, Repr

/-- `ProjectPlan` from pipeline.ts (the fields the orchestrator reads). -/
structure ProjectPlan where
  projectType : String
  description : String
  files : List FileSpec
  dependencies : List String
deriving DecidableEq, Repr

/-- `GeneratedFile` from pipeline.ts. -/
structure GeneratedFile where
  path : String
  content : String
  validated : Bool
  errors : Option (List String)
deriving DecidableEq, Repr

/-- The comparator of `sortFilesByDependency`: priorities are compared only
when BOTH are present, otherwise dependency-list lengths are compared. -/
def fileCompare (a b : FileSpec) : ℤ :=
  match a.priority, b.priority with
  | some pa, some pb => pa - pb
  | _, _ => (a.dependencies.length : ℤ) - (b.dependencies.length : ℤ)

/-- Stable insertion of `a` into `l`: `a` goes after every element that
compares strictly before it and before the first that does not, preserving
the relative order of ties. -/
def sortInsert (lt : α → α → Bool) (a : α) : List α → List α
  | [] => [a]
  | b :: bs => if lt b a then b :: sortInsert lt a bs else a :: b :: bs

/-- A stable comparison sort (insertion sort). ECMAScript
`Array.prototype.sort` is required to be stable and is
implementation-defined on inconsistent comparators; we model it by a
stable sort, which agrees with any conforming engine whenever the
comparator is consistent on the array (and on two-element arrays always). -/
def stableSort (lt : α → α → Bool) : List α → List α
  | [] => []
  | a :: as => sortInsert lt a (stableSort lt as)

/-- `sortFilesByDependency` from pipeline.ts: `[...files].sort(cmp)` with
the comparator above (`a` sorts before `b` iff `cmp a b < 0`). -/
def sortFilesByDependency (files : List FileSpec) : List FileSpec :=
  stableSort (fun a b => decide (fileCompare a b < 0)) files

/-- The spec's sort key for a file: explicit priority when present,
otherwise the dependency-list length. -/
def keyOf (f : FileSpec) : ℤ :=
  f.priority.getD (f.dependencies.length : ℤ)

/-- `SessionStatus` from pipeline.ts. -/
inductive SessionStatus
  | pending
  | planning
  | scaffolding
  | generating
  | validating
  | completed
  | failed
deriving DecidableEq, Repr

/-- The optional fields `updateSessionStatus` may receive (its `data`
parameter). -/
structure SessionUpdateData where
  plan : Option ProjectPlan
  files_planned : Option ℕ
  files_generated : Option ℕ
  error_message : Option String
  tokens_used : Option ℕ
  credits_used : Option ℤ
deriving DecidableEq, Repr

/-- An empty `data` object. -/
def noData : SessionUpdateData :=
  ⟨none, none, none, none, none, none⟩

/-- The row update passed to `db.updateSession`: the status, the partial
fields, and the completion timestamp when one is included. -/
structure SessionUpdate where
  status : SessionStatus
  data : SessionUpdateData
  completed_at : Option String
deriving DecidableEq, Repr

/-- `updateSessionStatus` from pipeline.ts: spreads `data` over the status
and adds `completed_at` exactly on the two terminal statuses. `now` stands
for `new Date().toISOString()`. -/
def updateSessionStatus (status : SessionStatus) (data : SessionUpdateData)
    (now : String) : SessionUpdate :=
  { status := status, data := data,
    completed_at :=
      if status = .completed ∨ status = .failed then some now else none }

/-- The `db.updateSession` payload of the cancel route in
`src/api/generate.ts`: status `failed`, a cancellation message, and an
explicit completion timestamp. -/
def cancelSessionUpdate (now : String) : SessionUpdate :=
  { status := .failed,
    data := { noData with error_message := some "Cancelled by user" },
    completed_at := some now }

/-- Generic outcome of an awaited external call: resolved or rejected. -/
inductive Outcome (α : Type)
  | ok (val : α)
  | err (e : ThrownError)

/-- Whether an `Outcome` resolved. -/
def Outcome.toBool : Outcome α → Bool
  | .ok _ => true
  | .err _ => false

/-- What `coder.generateFile` resolves with (coder.ts `CoderResult`). -/
structure CoderResult where
  content : String
  tokensUsed : ℕ
  cost : ℚ
  model : String
deriving DecidableEq, Repr

/-- What `validator.validateFile` resolves with (validator.ts
`ValidationResult`). -/
structure ValidationRes where
  valid : Bool
  issues : List String
  suggestions : List String
  tokensUsed : ℕ
  cost : ℚ
deriving DecidableEq, Repr

/-- What `validator.fix` resolves with (validator.ts `FixResult`). -/
structure FixRes where
  content : String
  tokensUsed : ℕ
  cost : ℚ
deriving DecidableEq, Repr

/-- What `architect.createPlan` resolves with. -/
structure PlanResult where
  plan : ProjectPlan
  tokensUsed : ℕ
  cost : ℚ
deriving DecidableEq, Repr

/-- A suggestion parsed from the `suggest` call. -/
structure Suggestion where
  title : String
  description : String
  priority : String
deriving DecidableEq, Repr

/-- The oracles a `GenerationPipeline.run` consumes. Validator calls are
indexed by file path and 1-based attempt number; they are modelled as
total functions since the claims under study concern the planning and
per-file generation failure paths. -/
structure PipelineEnv where
  planOutcome : Outcome PlanResult
  genOutcome : FileSpec → Outcome CoderResult
  validateOracle : String → ℕ → ValidationRes
  fixOracle : String → ℕ → FixRes
  suggestOutcome : Outcome (List Suggestion)
  now : String

/-- Default of `options?.maxValidationRetries ?? 3`. -/
def defaultMaxValidationRetries : ℕ := 3

/-- The per-file validate-then-fix `while` loop of phase 4.
`remaining` is `maxValidationRetries - validationAttempts`; `attempts`
mirrors the `validationAttempts` counter. Returns the updated file and the
number of validation calls performed. -/
def validationLoopAux (validate : ℕ → ValidationRes) (fix : ℕ → FixRes) :
    ℕ → ℕ → GeneratedFile → GeneratedFile × ℕ
  | 0, attempts, file => (file, attempts)
  | remaining + 1, attempts, file =>
      let v := validate (attempts + 1)
      if v.valid then
        ({ file with validated := true }, attempts + 1)
      else
        let fr := fix (attempts + 1)
        validationLoopAux validate fix remaining (attempts + 1)
          { file with content := fr.content, errors := some v.issues }

/-- The validate-then-fix loop for one generated file. -/
def validationLoop (validate : ℕ → ValidationRes) (fix : ℕ → FixRes)
    (maxRetries : ℕ) (file : GeneratedFile) : GeneratedFile × ℕ :=
  validationLoopAux validate fix maxRetries 0 file

/-- The phase-3 `for` loop over the sorted `FileSpec`s: a successful
`coder.generateFile` pushes a `GeneratedFile` and writes a `generating`
progress update carrying the new count; a rejected one is caught, logged
and skipped. `count` mirrors `generatedFiles.length`. -/
def generateLoop (gen : FileSpec → Outcome CoderResult) (now : String) :
    List FileSpec → ℕ → List GeneratedFile × List SessionUpdate
  | [], _ => ([], [])
  | spec :: rest, count =>
      match gen spec with
      | .ok r =>
          let f : GeneratedFile :=
            { path := spec.path, content := r.content,
              validated := false, errors := none }
          let w := updateSessionStatus .generating
            { noData with files_generated := some (count + 1) } now
          let rec_ := generateLoop gen now rest (count + 1)
          (f :: rec_.1, w :: rec_.2)
      | .err _ => generateLoop gen now rest count

/-- Result of one pipeline run (the fields of `PipelineResult` the claims
concern). -/
structure RunResult where
  success : Bool
  plan : Option ProjectPlan
  files : List GeneratedFile
  error : Option String
deriving DecidableEq, Repr

/-- A pipeline run together with the ordered list of session updates it
issued. -/
structure PipelineOutput where
  result : RunResult
  trace : List SessionUpdate

/-- `GenerationPipeline.run` from pipeline.ts, as a function of its oracle
environment. Status writes: `planning`; (plan…) `scaffolding` with the
plan and `files_planned`; `generating`; one `generating` progress update
per successfully generated file; `validating`; `completed`. A rejection of
the planning call reaches the outer catch, which writes `failed` with the
error message. Suggestion failures are caught and yield no suggestions.
Token/credit accumulation is carried through the terminal update. -/
def pipelineRun (env : PipelineEnv) (maxValidationRetries : ℕ) : PipelineOutput :=
  let w1 := updateSessionStatus .planning noData env.now
  match env.planOutcome with
  | .err e =>
      { result := { success := false, plan := none, files := [],
                    error := some e.message },
        trace := [w1,
          updateSessionStatus .failed
            { noData with error_message := some e.message,
                          tokens_used := some 0, credits_used := some 0 }
            env.now] }
  | .ok pr =>
      let plan := pr.plan
      let w2 := updateSessionStatus .scaffolding
        { noData with plan := some plan,
                      files_planned := some plan.files.length } env.now
      let w3 := updateSessionStatus .generating noData env.now
      let sortedFiles := sortFilesByDependency plan.files
      let gen := generateLoop env.genOutcome env.now sortedFiles 0
      let w4 := updateSessionStatus .validating noData env.now
      let validated := gen.1.map fun f =>
        (validationLoop (env.validateOracle f.path) (env.fixOracle f.path)
          maxValidationRetries f).1
      let w5 := updateSessionStatus .completed
        { noData with files_generated := some gen.1.length } env.now
      { result := { success := true, plan := some plan, files := validated,
                    error := none },
        trace := [w1, w2, w3] ++ gen.2 ++ [w4, w5] }

/-- Modelled from the spec: `db.createSession` (defined in
`src/db/queries.ts`, which is not part of the source tree; only its caller
in `src/api/generate.ts` is) creates the Session a run is bound to. Per
the spec's state machine (`pending → planning → …`) the session starts in
status `pending`, so session creation contributes the initial `pending`
status value. -/
def createSessionInitialStatus : SessionStatus := .pending

/-- The status values a run writes, including the spec-modelled initial
`pending` from session creation. -/
def runStatusTrace (env : PipelineEnv) (maxValidationRetries : ℕ) :
    List SessionStatus :=
  createSessionInitialStatus ::
    (pipelineRun env maxValidationRetries).trace.map (fun u => u.status)

/-- Collapse consecutive duplicate statuses. -/
def collapseDups : List SessionStatus → List SessionStatus
  | [] => []
  | [a] => [a]
  | a :: b :: rest =>
      if a = b then collapseDups (b :: rest) else a :: collapseDups (b :: rest)

/-! ## Lemmas about the retry loop -/

section RetryLemmas

variable (oracle : ℕ → AttemptResult) (provider : AIProvider) (model : String)
    (retryDelayMs : ℕ)

lemma ewpAux_zero (a : ℕ) (le : Option ThrownError) (ds : List ℕ) :
    executeWithProviderAux oracle provider model retryDelayMs 0 a le ds =
      (.thrown (le.getD ⟨"Unknown execution error"⟩), ⟨a, ds⟩) := rfl

lemma ewpAux_succ_success {n a : ℕ} {le : Option ThrownError} {ds : List ℕ}
    {out : ProviderCallOut} (h : oracle a = .success out) :
    executeWithProviderAux oracle provider model retryDelayMs (n + 1) a le ds =
      (.ok (mkResponse provider model out), ⟨a + 1, ds⟩) := by
  simp [executeWithProviderAux, h]

lemma ewpAux_succ_rl {n a : ℕ} {le : Option ThrownError} {ds : List ℕ}
    {e : ThrownError} (h : oracle a = .failure e) (hrl : isRateLimitError e = true) :
    executeWithProviderAux oracle provider model retryDelayMs (n + 1) a le ds =
      executeWithProviderAux oracle provider model retryDelayMs n (a + 1) (some e)
        (ds ++ [retryDelayMs * (a + 1)]) := by
  simp [executeWithProviderAux, h, hrl]

lemma ewpAux_succ_nonrl {n a : ℕ} {le : Option ThrownError} {ds : List ℕ}
    {e : ThrownError} (h : oracle a = .failure e) (hrl : isRateLimitError e = false) :
    executeWithProviderAux oracle provider model retryDelayMs (n + 1) a le ds =
      (.thrown e, ⟨a + 1, ds⟩) := by
  simp [executeWithProviderAux, h, hrl]

lemma ewpAux_attempts_bounds :
    ∀ (r a : ℕ) (le : Option ThrownError) (ds : List ℕ),
      a ≤ (executeWithProviderAux oracle provider model retryDelayMs r a le ds).2.attemptsMade ∧
      (executeWithProviderAux oracle provider model retryDelayMs r a le ds).2.attemptsMade ≤ a + r := by
  intro r
  induction r with
  | zero => intro a le ds; rw [ewpAux_zero]; dsimp only; omega
  | succ n ih =>
      intro a le ds
      rcases h : oracle a with out | e
      · rw [ewpAux_succ_success oracle provider model retryDelayMs h]
        simp only
        omega
      · rcases hrl : isRateLimitError e with _ | _
        · rw [ewpAux_succ_nonrl oracle provider model retryDelayMs h hrl]
          simp only
          omega
        · rw [ewpAux_succ_rl oracle provider model retryDelayMs h hrl]
          have h2 := ih (a + 1) (some e) (ds ++ [retryDelayMs * (a + 1)])
          omega

lemma ewpAux_retry_only_rate_limit :
    ∀ (r a : ℕ) (le : Option ThrownError) (ds : List ℕ) (i : ℕ),
      a ≤ i →
      i + 1 < (executeWithProviderAux oracle provider model retryDelayMs r a le ds).2.attemptsMade →
      ∃ e, oracle i = .failure e ∧ isRateLimitError e = true := by
  intro r
  induction r with
  | zero =>
      intro a le ds i hai hlt
      rw [ewpAux_zero] at hlt
      simp only at hlt
      omega
  | succ n ih =>
      intro a le ds i hai hlt
      rcases h : oracle a with out | e
      · rw [ewpAux_succ_success oracle provider model retryDelayMs h] at hlt
        simp only at hlt
        omega
      · rcases hrl : isRateLimitError e with _ | _
        · rw [ewpAux_succ_nonrl oracle provider model retryDelayMs h hrl] at hlt
          simp only at hlt
          omega
        · rw [ewpAux_succ_rl oracle provider model retryDelayMs h hrl] at hlt
          rcases Nat.eq_or_lt_of_le hai with heq | hgt
          · subst heq
            exact ⟨e, h, hrl⟩
          · exact ih (a + 1) (some e) (ds ++ [retryDelayMs * (a + 1)]) i hgt hlt

lemma ewpAux_delays :
    ∀ (r a : ℕ) (le : Option ThrownError) (ds : List ℕ),
      ds.length = a →
      (∀ j (h : j < ds.length), ds.get ⟨j, h⟩ = retryDelayMs * (j + 1)) →
      (∀ j (h : j < (executeWithProviderAux oracle provider model retryDelayMs r a le ds).2.delays.length),
          (executeWithProviderAux oracle provider model retryDelayMs r a le ds).2.delays.get ⟨j, h⟩ =
            retryDelayMs * (j + 1)) ∧
      (executeWithProviderAux oracle provider model retryDelayMs r a le ds).2.attemptsMade ≤
        (executeWithProviderAux oracle provider model retryDelayMs r a le ds).2.delays.length + 1 ∧
      (executeWithProviderAux oracle provider model retryDelayMs r a le ds).2.delays.length ≤
        (executeWithProviderAux oracle provider model retryDelayMs r a le ds).2.attemptsMade := by
  intro r
  induction r with
  | zero =>
      intro a le ds hlen hval
      rw [ewpAux_zero]
      exact ⟨fun j h => hval j h, by simp only; omega, by simp only; omega⟩
  | succ n ih =>
      intro a le ds hlen hval
      rcases h : oracle a with out | e
      · rw [ewpAux_succ_success oracle provider model retryDelayMs h]
        exact ⟨fun j hj => hval j hj, by simp only; omega, by simp only; omega⟩
      · rcases hrl : isRateLimitError e with _ | _
        · rw [ewpAux_succ_nonrl oracle provider model retryDelayMs h hrl]
          exact ⟨fun j hj => hval j hj, by simp only; omega, by simp only; omega⟩
        · rw [ewpAux_succ_rl oracle provider model retryDelayMs h hrl]
          refine ih (a + 1) (some e) (ds ++ [retryDelayMs * (a + 1)]) (by simp [hlen]) ?_
          intro j hj
          simp only [List.length_append, List.length_cons, List.length_nil] at hj
          rcases Nat.lt_or_ge j ds.length with hlt | hge
          · rw [List.get_append _ hlt]
            exact hval j hlt
          · have hj' : j = ds.length := by omega
            subst hj'
            simp [hlen]

lemma ewpAux_nonrl_aborts :
    ∀ (r a : ℕ) (le : Option ThrownError) (ds : List ℕ) (i : ℕ) (e : ThrownError),
      a ≤ i →
      i < (executeWithProviderAux oracle provider model retryDelayMs r a le ds).2.attemptsMade →
      oracle i = .failure e →
      isRateLimitError e = false →
      (executeWithProviderAux oracle provider model retryDelayMs r a le ds).2.attemptsMade = i + 1 ∧
      (executeWithProviderAux oracle provider model retryDelayMs r a le ds).1 = .thrown e := by
  intro r
  induction r with
  | zero =>
      intro a le ds i e hai hlt hfail hrl
      rw [ewpAux_zero] at hlt
      simp only at hlt
      omega
  | succ n ih =>
      intro a le ds i e hai hlt hfail hrl
      rcases h : oracle a with out | e'
      · rw [ewpAux_succ_success oracle provider model retryDelayMs h] at hlt ⊢
        simp only at hlt
        have : i = a := by omega
        subst this
        rw [h] at hfail
        exact absurd hfail (by simp)
      · rcases hrl' : isRateLimitError e' with _ | _
        · rw [ewpAux_succ_nonrl oracle provider model retryDelayMs h hrl'] at hlt ⊢
          simp only at hlt
          have : i = a := by omega
          subst this
          rw [h] at hfail
          injection hfail with he
          subst he
          exact ⟨rfl, rfl⟩
        · rw [ewpAux_succ_rl oracle provider model retryDelayMs h hrl'] at hlt ⊢
          rcases Nat.eq_or_lt_of_le hai with heq | hgt
          · subst heq
            rw [h] at hfail
            injection hfail with he
            subst he
            rw [hrl'] at hrl
            exact absurd hrl (by simp)
          · exact ih (a + 1) (some e') (ds ++ [retryDelayMs * (a + 1)]) i e hgt hlt hfail hrl

lemma ewpAux_thrown_last :
    ∀ (r a : ℕ) (le : Option ThrownError) (ds : List ℕ),
      (∀ e', le = some e' → 1 ≤ a ∧ oracle (a - 1) = .failure e') →
      (le = none → 1 ≤ r) →
      ∀ e tr,
        executeWithProviderAux oracle provider model retryDelayMs r a le ds = (.thrown e, tr) →
        1 ≤ tr.attemptsMade ∧ oracle (tr.attemptsMade - 1) = .failure e := by
  intro r
  induction r with
  | zero =>
      intro a le ds hle hr e tr heq
      rcases le with _ | e'
      · exact absurd (hr rfl) (by omega)
      · rw [ewpAux_zero] at heq
        obtain ⟨h1, h2⟩ := hle e' rfl
        injection heq with heq1 heq2
        injection heq1 with he
        subst heq2
        simp only [Option.getD] at he
        subst he
        exact ⟨h1, h2⟩
  | succ n ih =>
      intro a le ds hle hr e tr heq
      rcases h : oracle a with out | e'
      · rw [ewpAux_succ_success oracle provider model retryDelayMs h] at heq
        simp at heq
      · rcases hrl : isRateLimitError e' with _ | _
        · rw [ewpAux_succ_nonrl oracle provider model retryDelayMs h hrl] at heq
          injection heq with heq1 heq2
          injection heq1 with he
          subst he
          subst heq2
          exact ⟨by dsimp only; omega, by simpa using h⟩
        · rw [ewpAux_succ_rl oracle provider model retryDelayMs h hrl] at heq
          refine ih (a + 1) (some e') (ds ++ [retryDelayMs * (a + 1)]) ?_ (by simp) e tr heq
          intro e'' he''
          injection he'' with he''
          subst he''
          exact ⟨by omega, by simpa using h⟩

lemma ewpAux_ok_provider_model :
    ∀ (r a : ℕ) (le : Option ThrownError) (ds : List ℕ) (resp : AIResponse) (tr : CandidateTrace),
      executeWithProviderAux oracle provider model retryDelayMs r a le ds = (.ok resp, tr) →
      resp.provider = provider ∧ resp.model = model := by
  intro r
  induction r with
  | zero =>
      intro a le ds resp tr heq
      rw [ewpAux_zero] at heq
      simp at heq
  | succ n ih =>
      intro a le ds resp tr heq
      rcases h : oracle a with out | e'
      · rw [ewpAux_succ_success oracle provider model retryDelayMs h] at heq
        injection heq with heq1 heq2
        injection heq1 with he
        subst he
        exact ⟨rfl, rfl⟩
      · rcases hrl : isRateLimitError e' with _ | _
        · rw [ewpAux_succ_nonrl oracle provider model retryDelayMs h hrl] at heq
          simp at heq
        · rw [ewpAux_succ_rl oracle provider model retryDelayMs h hrl] at heq
          exact ih (a + 1) (some e') (ds ++ [retryDelayMs * (a + 1)]) resp tr heq

end RetryLemmas

/-! ## Lemmas about `execute` and its candidate chain -/

section ExecuteLemmas

variable (env : ExecEnv) (retryCount retryDelayMs : ℕ) (task : TaskType)
    (routing : RoutingEntry)

lemma fallbackStep_of_none (tried : List (Candidate × CandidateTrace))
    (h : routing.fallback = none) :
    executeFallbackStep env retryCount retryDelayMs task routing tried =
      (.thrown ⟨"No available providers for task: " ++ taskName task⟩, tried) := by
  simp [executeFallbackStep, h]

lemma fallbackStep_of_unavail (tried : List (Candidate × CandidateTrace))
    (fb : Candidate) (h : routing.fallback = some fb)
    (ha : isProviderAvailable env.keys fb.provider = false) :
    executeFallbackStep env retryCount retryDelayMs task routing tried =
      (.thrown ⟨"No available providers for task: " ++ taskName task⟩, tried) := by
  simp [executeFallbackStep, h, ha]

lemma fallbackStep_of_avail (tried : List (Candidate × CandidateTrace))
    (fb : Candidate) (h : routing.fallback = some fb)
    (ha : isProviderAvailable env.keys fb.provider = true) :
    executeFallbackStep env retryCount retryDelayMs task routing tried =
      ((executeWithProvider (env.call fb.provider fb.model) fb.provider fb.model
          retryCount retryDelayMs).1,
        tried ++ [(fb, (executeWithProvider (env.call fb.provider fb.model)
          fb.provider fb.model retryCount retryDelayMs).2)]) := by
  simp [executeFallbackStep, h, ha]

lemma execute_of_unavail
    (hp : isProviderAvailable env.keys (ModelRouting task).provider = false) :
    execute env retryCount retryDelayMs task =
      executeFallbackStep env retryCount retryDelayMs task (ModelRouting task) [] := by
  simp [execute, hp]

lemma execute_of_avail_ok
    (hp : isProviderAvailable env.keys (ModelRouting task).provider = true)
    (resp : AIResponse) (tr : CandidateTrace)
    (h : executeWithProvider
        (env.call (ModelRouting task).provider (ModelRouting task).model)
        (ModelRouting task).provider (ModelRouting task).model
        retryCount retryDelayMs = (.ok resp, tr)) :
    execute env retryCount retryDelayMs task =
      (.ok resp, [(⟨(ModelRouting task).provider, (ModelRouting task).model⟩, tr)]) := by
  simp [execute, hp, h]

lemma execute_of_avail_thrown
    (hp : isProviderAvailable env.keys (ModelRouting task).provider = true)
    (e : ThrownError) (tr : CandidateTrace)
    (h : executeWithProvider
        (env.call (ModelRouting task).provider (ModelRouting task).model)
        (ModelRouting task).provider (ModelRouting task).model
        retryCount retryDelayMs = (.thrown e, tr)) :
    execute env retryCount retryDelayMs task =
      executeFallbackStep env retryCount retryDelayMs task (ModelRouting task)
        [(⟨(ModelRouting task).provider, (ModelRouting task).model⟩, tr)] := by
  simp [execute, hp, h]

lemma fallbackStep_log_shape (tried : List (Candidate × CandidateTrace)) :
    (executeFallbackStep env retryCount retryDelayMs task routing tried).2 = tried ∨
    ∃ fb tr, routing.fallback = some fb ∧
      (executeFallbackStep env retryCount retryDelayMs task routing tried).2 =
        tried ++ [(fb, tr)] := by
  rcases hf : routing.fallback with _ | fb
  · left
    rw [fallbackStep_of_none env retryCount retryDelayMs task routing tried hf]
  · rcases ha : isProviderAvailable env.keys fb.provider with _ | _
    · left
      rw [fallbackStep_of_unavail env retryCount retryDelayMs task routing tried fb hf ha]
    · right
      refine ⟨fb, _, rfl,
        by rw [fallbackStep_of_avail env retryCount retryDelayMs task routing tried fb hf ha]⟩

lemma execute_log_shape :
    (execute env retryCount retryDelayMs task).2 = [] ∨
    (∃ tr, (execute env retryCount retryDelayMs task).2 =
        [(⟨(ModelRouting task).provider, (ModelRouting task).model⟩, tr)]) ∨
    (∃ fb tr, (ModelRouting task).fallback = some fb ∧
        (execute env retryCount retryDelayMs task).2 = [(fb, tr)]) ∨
    (∃ tr fb tr2, (ModelRouting task).fallback = some fb ∧
        (execute env retryCount retryDelayMs task).2 =
          [(⟨(ModelRouting task).provider, (ModelRouting task).model⟩, tr), (fb, tr2)]) := by
  rcases hp : isProviderAvailable env.keys (ModelRouting task).provider with _ | _
  · rw [execute_of_unavail env retryCount retryDelayMs task hp]
    rcases fallbackStep_log_shape env retryCount retryDelayMs task (ModelRouting task) []
      with h | ⟨fb, tr, hf, h⟩
    · left
      exact h
    · right; right; left
      exact ⟨fb, tr, hf, by simpa using h⟩
  · rcases hr : executeWithProvider
        (env.call (ModelRouting task).provider (ModelRouting task).model)
        (ModelRouting task).provider (ModelRouting task).model
        retryCount retryDelayMs with ⟨res, tr⟩
    rcases res with resp | e
    · right; left
      exact ⟨tr, by rw [execute_of_avail_ok env retryCount retryDelayMs task hp resp tr hr]⟩
    · rw [execute_of_avail_thrown env retryCount retryDelayMs task hp e tr hr]
      rcases fallbackStep_log_shape env retryCount retryDelayMs task (ModelRouting task)
        [(⟨(ModelRouting task).provider, (ModelRouting task).model⟩, tr)]
        with h | ⟨fb, tr2, hf, h⟩
      · right; left
        exact ⟨tr, h⟩
      · right; right; right
        exact ⟨tr, fb, tr2, hf, by simpa using h⟩

lemma execute_log_of_unavail
    (hp : isProviderAvailable env.keys (ModelRouting task).provider = false) :
    (execute env retryCount retryDelayMs task).2 = [] ∨
    ∃ fb tr, (ModelRouting task).fallback = some fb ∧
      (execute env retryCount retryDelayMs task).2 = [(fb, tr)] := by
  rw [execute_of_unavail env retryCount retryDelayMs task hp]
  rcases fallbackStep_log_shape env retryCount retryDelayMs task (ModelRouting task) []
    with h | ⟨fb, tr, hf, h⟩
  · left
    exact h
  · right
    exact ⟨fb, tr, hf, by simpa using h⟩

end ExecuteLemmas

/-! ## Lemmas about the stable sort -/

section SortLemmas

variable {α : Type} (lt : α → α → Bool) (R : α → α → Prop)

lemma sortInsert_cons_lt {a b : α} {bs : List α} (h : lt b a = true) :
    sortInsert lt a (b :: bs) = b :: sortInsert lt a bs := by
  simp [sortInsert, h]

lemma sortInsert_cons_ge {a b : α} {bs : List α} (h : lt b a = false) :
    sortInsert lt a (b :: bs) = a :: b :: bs := by
  simp [sortInsert, h]

lemma mem_sortInsert (a x : α) :
    ∀ l : List α, x ∈ sortInsert lt a l ↔ x = a ∨ x ∈ l := by
  intro l
  induction l with
  | nil => simp [sortInsert]
  | cons b bs ih =>
      rcases h : lt b a with _ | _
      · rw [sortInsert_cons_ge lt h]
        simp
      · rw [sortInsert_cons_lt lt h]
        simp only [List.mem_cons, ih]
        tauto

lemma mem_stableSort (x : α) :
    ∀ l : List α, x ∈ stableSort lt l ↔ x ∈ l := by
  intro l
  induction l with
  | nil => simp [stableSort]
  | cons a as ih =>
      simp only [stableSort, mem_sortInsert, List.mem_cons, ih]

lemma pairwise_sortInsert (a : α) :
    ∀ l : List α,
      List.Pairwise R l →
      (∀ b ∈ l, lt b a = true → R b a) →
      (∀ b ∈ l, lt b a = false → R a b) →
      (∀ x y z, R x y → R y z → R x z) →
      List.Pairwise R (sortInsert lt a l) := by
  intro l
  induction l with
  | nil =>
      intro _ _ _ _
      simp [sortInsert]
  | cons b bs ih =>
      intro hl h1 h2 htrans
      have hb : ∀ x ∈ bs, R b x := fun x hx => List.rel_of_pairwise_cons hl hx
      have hbs : List.Pairwise R bs := List.Pairwise.of_cons hl
      rcases h : lt b a with _ | _
      · rw [sortInsert_cons_ge lt h]
        constructor
        · intro x hx
          rcases List.mem_cons.mp hx with heq | hmem
          · rw [heq]
            exact h2 b (by simp) h
          · exact htrans a b x (h2 b (by simp) h) (hb x hmem)
        · exact hl
      · rw [sortInsert_cons_lt lt h]
        constructor
        · intro x hx
          rcases (mem_sortInsert lt a x bs).mp hx with heq | hmem
          · rw [heq]
            exact h1 b (by simp) h
          · exact hb x hmem
        · exact ih hbs (fun c hc h' => h1 c (by simp [hc]) h')
            (fun c hc h' => h2 c (by simp [hc]) h') htrans

lemma pairwise_stableSort :
    ∀ l : List α,
      (∀ a ∈ l, ∀ b ∈ l, (lt a b = true → R a b) ∧ (lt a b = false → R b a)) →
      (∀ x y z, R x y → R y z → R x z) →
      List.Pairwise R (stableSort lt l) := by
  intro l
  induction l with
  | nil =>
      intro _ _
      simp [stableSort]
  | cons a as ih =>
      intro hrel htrans
      simp only [stableSort]
      refine pairwise_sortInsert lt R a (stableSort lt as) ?_ ?_ ?_ htrans
      · exact ih (fun x hx y hy => hrel x (by simp [hx]) y (by simp [hy])) htrans
      · intro b hb hlt
        rw [mem_stableSort] at hb
        exact (hrel b (by simp [hb]) a (by simp)).1 hlt
      · intro b hb hlt
        rw [mem_stableSort] at hb
        exact (hrel b (by simp [hb]) a (by simp)).2 hlt

end SortLemmas

/-! ## Lemmas about the generate loop -/

section GenerateLemmas

variable (gen : FileSpec → Outcome CoderResult) (now : String)

/-- The `GeneratedFile` phase 3 pushes for a spec whose generation
resolved. -/
def genFileOf (gen : FileSpec → Outcome CoderResult) (s : FileSpec) : GeneratedFile :=
  match gen s with
  | .ok r => { path := s.path, content := r.content, validated := false, errors := none }
  | .err _ => { path := s.path, content := "", validated := false, errors := none }

lemma generateLoop_cons_ok {s : FileSpec} {rest : List FileSpec} {count : ℕ}
    {r : CoderResult} (h : gen s = .ok r) :
    generateLoop gen now (s :: rest) count =
      ({ path := s.path, content := r.content, validated := false, errors := none } ::
          (generateLoop gen now rest (count + 1)).1,
        updateSessionStatus .generating
          { noData with files_generated := some (count + 1) } now ::
          (generateLoop gen now rest (count + 1)).2) := by
  simp [generateLoop, h]

lemma generateLoop_cons_err {s : FileSpec} {rest : List FileSpec} {count : ℕ}
    {e : ThrownError} (h : gen s = .err e) :
    generateLoop gen now (s :: rest) count = generateLoop gen now rest count := by
  simp [generateLoop, h]

lemma generateLoop_files :
    ∀ (specs : List FileSpec) (count : ℕ),
      (generateLoop gen now specs count).1 =
        (specs.filter fun s => (gen s).toBool).map (genFileOf gen) := by
  intro specs
  induction specs with
  | nil => intro count; simp [generateLoop]
  | cons s rest ih =>
      intro count
      rcases h : gen s with r | e
      · rw [generateLoop_cons_ok gen now h, ih]
        have hb : (gen s).toBool = true := by rw [h]; rfl
        rw [List.filter_cons, if_pos hb, List.map_cons]
        simp [genFileOf, h]
      · rw [generateLoop_cons_err gen now h, ih count, List.filter_cons]
        have hb : (gen s).toBool = false := by rw [h]; rfl
        rw [if_neg (by simp [hb])]

lemma generateLoop_writes :
    ∀ (specs : List FileSpec) (count : ℕ) (w : SessionUpdate),
      w ∈ (generateLoop gen now specs count).2 →
      ∃ d, w = updateSessionStatus .generating d now := by
  intro specs
  induction specs with
  | nil =>
      intro count w hw
      simp [generateLoop] at hw
  | cons s rest ih =>
      intro count w hw
      rcases h : gen s with r | e
      · rw [generateLoop_cons_ok gen now h] at hw
        rcases List.mem_cons.mp hw with hw | hw
        · exact ⟨_, hw⟩
        · exact ih (count + 1) w hw
      · rw [generateLoop_cons_err gen now h] at hw
        exact ih count w hw

end GenerateLemmas

/-! ## Lemmas about the validation loop -/

section ValidationLemmas

variable (validate : ℕ → ValidationRes) (fix : ℕ → FixRes)

lemma vloopAux_succ_valid {n attempts : ℕ} {file : GeneratedFile}
    (h : (validate (attempts + 1)).valid = true) :
    validationLoopAux validate fix (n + 1) attempts file =
      ({ file with validated := true }, attempts + 1) := by
  simp [validationLoopAux, h]

lemma vloopAux_succ_invalid {n attempts : ℕ} {file : GeneratedFile}
    (h : (validate (attempts + 1)).valid = false) :
    validationLoopAux validate fix (n + 1) attempts file =
      validationLoopAux validate fix n (attempts + 1)
        { file with content := (fix (attempts + 1)).content,
                    errors := some (validate (attempts + 1)).issues } := by
  simp [validationLoopAux, h]

lemma vloopAux_path :
    ∀ (r attempts : ℕ) (file : GeneratedFile),
      (validationLoopAux validate fix r attempts file).1.path = file.path := by
  intro r
  induction r with
  | zero => intro attempts file; rfl
  | succ n ih =>
      intro attempts file
      rcases h : (validate (attempts + 1)).valid with _ | _
      · rw [vloopAux_succ_invalid validate fix h]
        exact ih (attempts + 1) _
      · rw [vloopAux_succ_valid validate fix h]

lemma vloopAux_calls_bounds :
    ∀ (r attempts : ℕ) (file : GeneratedFile),
      attempts ≤ (validationLoopAux validate fix r attempts file).2 ∧
      (validationLoopAux validate fix r attempts file).2 ≤ attempts + r := by
  intro r
  induction r with
  | zero => intro attempts file; simp [validationLoopAux]
  | succ n ih =>
      intro attempts file
      rcases h : (validate (attempts + 1)).valid with _ | _
      · rw [vloopAux_succ_invalid validate fix h]
        have h2 := ih (attempts + 1)
          { file with content := (fix (attempts + 1)).content,
                      errors := some (validate (attempts + 1)).issues }
        omega
      · rw [vloopAux_succ_valid validate fix h]
        dsimp only
        omega

lemma vloopAux_first_valid :
    ∀ (r attempts : ℕ) (file : GeneratedFile) (k : ℕ),
      attempts < k →
      k ≤ attempts + r →
      (validate k).valid = true →
      (∀ j, attempts < j → j < k → (validate j).valid = false) →
      (validationLoopAux validate fix r attempts file).1.validated = true ∧
      (validationLoopAux validate fix r attempts file).2 = k := by
  intro r
  induction r with
  | zero =>
      intro attempts file k h1 h2 _ _
      omega
  | succ n ih =>
      intro attempts file k h1 h2 hvalid hprev
      rcases Nat.eq_or_lt_of_le h1 with heq | hgt
      · rw [← heq] at hvalid
        rw [vloopAux_succ_valid validate fix hvalid]
        exact ⟨rfl, by dsimp only; omega⟩
      · have hcur : (validate (attempts + 1)).valid = false :=
          hprev (attempts + 1) (by omega) (by omega)
        rw [vloopAux_succ_invalid validate fix hcur]
        exact ih (attempts + 1) _ k hgt (by omega) hvalid
          (fun j hj1 hj2 => hprev j (by omega) hj2)

lemma vloopAux_exhausted :
    ∀ (r attempts : ℕ) (file : GeneratedFile),
      (∀ j, attempts < j → j ≤ attempts + r → (validate j).valid = false) →
      (validationLoopAux validate fix r attempts file).1.validated = file.validated ∧
      (validationLoopAux validate fix r attempts file).2 = attempts + r ∧
      (validationLoopAux validate fix r attempts file).1.errors =
        (if r = 0 then file.errors else some (validate (attempts + r)).issues) := by
  intro r
  induction r with
  | zero =>
      intro attempts file _
      simp [validationLoopAux]
  | succ n ih =>
      intro attempts file hall
      have hcur : (validate (attempts + 1)).valid = false :=
        hall (attempts + 1) (by omega) (by omega)
      rw [vloopAux_succ_invalid validate fix hcur]
      have h2 := ih (attempts + 1)
        { file with content := (fix (attempts + 1)).content,
                    errors := some (validate (attempts + 1)).issues }
        (fun j hj1 hj2 => hall j (by omega) (by omega))
      rcases hn : n with _ | m
      · subst hn
        refine ⟨h2.1, by omega, ?_⟩
        have h3 := h2.2.2
        simp only [if_pos rfl] at h3
        rw [h3]
        simp
      · subst hn
        refine ⟨h2.1, by omega, ?_⟩
        have h3 := h2.2.2
        rw [if_neg (by omega : ¬ m + 1 = 0)] at h3
        rw [h3]
        rw [if_neg (by omega : ¬ m + 1 + 1 = 0)]
        have harg : attempts + 1 + (m + 1) = attempts + (m + 1 + 1) := by omega
        rw [harg]

end ValidationLemmas

/-! ## Lemmas about the pipeline run and its status trace -/

section PipelineLemmas

variable (env : PipelineEnv) (maxValidationRetries : ℕ)

/-- The phase-3 generation pass of a run: the generated files and the
progress updates, over the dependency-sorted plan files. -/
def genPhase (env : PipelineEnv) (plan : ProjectPlan) :
    List GeneratedFile × List SessionUpdate :=
  generateLoop env.genOutcome env.now (sortFilesByDependency plan.files) 0

lemma updateSessionStatus_status (st : SessionStatus) (d : SessionUpdateData)
    (now : String) : (updateSessionStatus st d now).status = st := rfl

lemma updateSessionStatus_completedAt (st : SessionStatus) (d : SessionUpdateData)
    (now : String) :
    ((updateSessionStatus st d now).completed_at ≠ none ↔
      (st = .completed ∨ st = .failed)) := by
  simp only [updateSessionStatus]
  rcases hc : st with _ | _ | _ | _ | _ | _ | _ <;> simp

lemma pipelineRun_planErr (e : ThrownError) (h : env.planOutcome = .err e) :
    pipelineRun env maxValidationRetries =
      { result := { success := false, plan := none, files := [],
                    error := some e.message },
        trace := [updateSessionStatus .planning noData env.now,
          updateSessionStatus .failed
            { noData with error_message := some e.message,
                          tokens_used := some 0, credits_used := some 0 }
            env.now] } := by
  simp [pipelineRun, h]

lemma pipelineRun_ok_trace (pr : PlanResult) (h : env.planOutcome = .ok pr) :
    (pipelineRun env maxValidationRetries).trace =
      updateSessionStatus .planning noData env.now ::
      updateSessionStatus .scaffolding
        { noData with plan := some pr.plan,
                      files_planned := some pr.plan.files.length } env.now ::
      updateSessionStatus .generating noData env.now ::
      ((genPhase env pr.plan).2 ++
        [updateSessionStatus .validating noData env.now,
          updateSessionStatus .completed
            { noData with files_generated := some (genPhase env pr.plan).1.length }
            env.now]) := by
  simp [pipelineRun, genPhase, h]

lemma pipelineRun_ok_result (pr : PlanResult) (h : env.planOutcome = .ok pr) :
    (pipelineRun env maxValidationRetries).result =
      { success := true, plan := some pr.plan,
        files := ((genPhase env pr.plan).1.map (fun f =>
          (validationLoop (env.validateOracle f.path) (env.fixOracle f.path)
            maxValidationRetries f).1)),
        error := none } := by
  simp [pipelineRun, genPhase, h]

lemma pipeline_trace_is_updates (u : SessionUpdate)
    (hu : u ∈ (pipelineRun env maxValidationRetries).trace) :
    ∃ s d, u = updateSessionStatus s d env.now := by
  rcases hp : env.planOutcome with pr | e
  · rw [pipelineRun_ok_trace env maxValidationRetries pr hp] at hu
    simp only [List.mem_cons, List.mem_append, List.mem_singleton] at hu
    rcases hu with hu | hu | hu | hu
    · exact ⟨_, _, hu⟩
    · exact ⟨_, _, hu⟩
    · exact ⟨_, _, hu⟩
    · rcases hu with hu | hu
      · obtain ⟨d, hd⟩ := generateLoop_writes env.genOutcome env.now
          (sortFilesByDependency pr.plan.files) 0 u (by simpa [genPhase] using hu)
        exact ⟨_, d, hd⟩
      · rcases hu with hu | hu
        · exact ⟨_, _, hu⟩
        · simp at hu
          exact ⟨_, _, hu⟩
  · rw [pipelineRun_planErr env maxValidationRetries e hp] at hu
    simp only [List.mem_cons, List.not_mem_nil, or_false] at hu
    rcases hu with hu | hu
    · exact ⟨_, _, hu⟩
    · exact ⟨_, _, hu⟩

/-! Collapsing consecutive duplicate statuses. -/

lemma collapseDups_cons_eq (a : SessionStatus) (rest : List SessionStatus) :
    collapseDups (a :: a :: rest) = collapseDups (a :: rest) := by
  simp [collapseDups]

lemma collapseDups_cons_ne (a b : SessionStatus) (rest : List SessionStatus)
    (h : a ≠ b) :
    collapseDups (a :: b :: rest) = a :: collapseDups (b :: rest) := by
  simp [collapseDups, h]

lemma collapseDups_gen_suffix :
    ∀ l : List SessionStatus, (∀ s ∈ l, s = SessionStatus.generating) →
      collapseDups (SessionStatus.generating :: (l ++
          [SessionStatus.validating, SessionStatus.completed])) =
        [SessionStatus.generating, SessionStatus.validating, SessionStatus.completed] := by
  intro l
  induction l with
  | nil =>
      intro _
      decide
  | cons s rest ih =>
      intro h
      have hs : s = SessionStatus.generating := h s (by simp)
      subst hs
      have hstep := collapseDups_cons_eq SessionStatus.generating
        (rest ++ [SessionStatus.validating, SessionStatus.completed])
      simp only [List.cons_append]
      rw [hstep]
      exact ih fun x hx => h x (by simp [hx])

lemma generateLoop_write_statuses (gen : FileSpec → Outcome CoderResult)
    (now : String) (specs : List FileSpec) (count : ℕ) :
    ∀ s ∈ ((generateLoop gen now specs count).2.map fun u => u.status),
      s = SessionStatus.generating := by
  intro s hs
  rcases List.mem_map.mp hs with ⟨u, hu, hsu⟩
  rcases generateLoop_writes gen now specs count u hu with ⟨d, hd⟩
  rw [← hsu, hd]
  rfl

lemma runStatusTrace_ok (pr : PlanResult) (h : env.planOutcome = .ok pr) :
    runStatusTrace env maxValidationRetries =
      SessionStatus.pending :: SessionStatus.planning :: SessionStatus.scaffolding ::
      SessionStatus.generating ::
      (((genPhase env pr.plan).2.map fun u => u.status) ++
        [SessionStatus.validating, SessionStatus.completed]) := by
  unfold runStatusTrace createSessionInitialStatus
  rw [pipelineRun_ok_trace env maxValidationRetries pr h]
  simp [updateSessionStatus_status]

end PipelineLemmas

/-! ## Lemmas about the credit estimator -/

section EstimateLemmas

lemma estimateCredits_tokens (prompt : String) (n : ℕ) :
    (estimateCredits prompt n).estimatedTokens =
      (prompt.length + 3) / 4 + n * 500 + (if n = 0 then 5 else n) * 1500 := rfl

lemma estimateCredits_credits (prompt : String) (n : ℕ) :
    (estimateCredits prompt n).estimatedCredits =
      ⌈((estimateCredits prompt n).estimatedTokens : ℚ) * CREDITS_COST_MULTIPLIER *
        complexityMultiplier (complexityOf (estimateCredits prompt n).estimatedTokens)⌉ := rfl

lemma complexityMultiplier_nonneg (c : Complexity) :
    (0 : ℚ) ≤ complexityMultiplier c := by
  cases c <;> norm_num [complexityMultiplier]

lemma complexityMultiplier_mono (t1 t2 : ℕ) (h : t1 ≤ t2) :
    complexityMultiplier (complexityOf t1) ≤ complexityMultiplier (complexityOf t2) := by
  unfold complexityOf
  split_ifs
  all_goals try (exfalso; omega)
  all_goals norm_num [complexityMultiplier]

lemma creditsFormula_mono (t1 t2 : ℕ) (h : t1 ≤ t2) :
    ⌈(t1 : ℚ) * CREDITS_COST_MULTIPLIER * complexityMultiplier (complexityOf t1)⌉ ≤
      ⌈(t2 : ℚ) * CREDITS_COST_MULTIPLIER * complexityMultiplier (complexityOf t2)⌉ := by
  apply Int.ceil_le_ceil
  have hT : (t1 : ℚ) ≤ (t2 : ℚ) := by exact_mod_cast h
  have hM : (0 : ℚ) ≤ CREDITS_COST_MULTIPLIER := by norm_num [CREDITS_COST_MULTIPLIER]
  have hm := complexityMultiplier_mono t1 t2 h
  have h1 := complexityMultiplier_nonneg (complexityOf t1)
  calc (t1 : ℚ) * CREDITS_COST_MULTIPLIER * complexityMultiplier (complexityOf t1)
      ≤ (t2 : ℚ) * CREDITS_COST_MULTIPLIER * complexityMultiplier (complexityOf t1) := by
        apply mul_le_mul_of_nonneg_right _ h1
        exact mul_le_mul_of_nonneg_right hT hM
    _ ≤ (t2 : ℚ) * CREDITS_COST_MULTIPLIER * complexityMultiplier (complexityOf t2) := by
        apply mul_le_mul_of_nonneg_left hm
        positivity

lemma estimatedTokens_mono_files (prompt : String) (n1 n2 : ℕ)
    (h1 : 1 ≤ n1) (h : n1 ≤ n2) :
    (estimateCredits prompt n1).estimatedTokens ≤
      (estimateCredits prompt n2).estimatedTokens := by
  rw [estimateCredits_tokens, estimateCredits_tokens]
  rw [if_neg (by omega), if_neg (by omega)]
  omega

lemma estimatedTokens_mono_prompt (p1 p2 : String) (n : ℕ)
    (h : p1.length ≤ p2.length) :
    (estimateCredits p1 n).estimatedTokens ≤ (estimateCredits p2 n).estimatedTokens := by
  rw [estimateCredits_tokens, estimateCredits_tokens]
  have hdiv : (p1.length + 3) / 4 ≤ (p2.length + 3) / 4 :=
    Nat.div_le_div_right (by omega)
  omega

end EstimateLemmas

/-! ## Remaining helper lemmas -/

section MoreHelpers

lemma sortInsert_length {α : Type} (lt : α → α → Bool) (a : α) :
    ∀ l : List α, (sortInsert lt a l).length = l.length + 1 := by
  intro l
  induction l with
  | nil => rfl
  | cons b bs ih =>
      rcases h : lt b a with _ | _
      · rw [sortInsert_cons_ge lt h]
        simp
      · rw [sortInsert_cons_lt lt h]
        simp [ih]

lemma stableSort_length {α : Type} (lt : α → α → Bool) :
    ∀ l : List α, (stableSort lt l).length = l.length := by
  intro l
  induction l with
  | nil => rfl
  | cons a as ih =>
      simp only [stableSort, sortInsert_length, ih, List.length_cons]

lemma sortFilesByDependency_length (files : List FileSpec) :
    (sortFilesByDependency files).length = files.length :=
  stableSort_length _ files

lemma genFileOf_path (gen : FileSpec → Outcome CoderResult) (s : FileSpec) :
    (genFileOf gen s).path = s.path := by
  unfold genFileOf
  rcases gen s with r | e <;> rfl

lemma validationLoop_path (validate : ℕ → ValidationRes) (fix : ℕ → FixRes)
    (maxRetries : ℕ) (file : GeneratedFile) :
    (validationLoop validate fix maxRetries file).1.path = file.path :=
  vloopAux_path validate fix maxRetries 0 file

lemma pipeline_ok_completes (env : PipelineEnv) (maxR : ℕ) (pr : PlanResult)
    (h : env.planOutcome = Outcome.ok pr) :
    (runStatusTrace env maxR).getLast? = some SessionStatus.completed := by
  rw [runStatusTrace_ok env maxR pr h]
  have hshape :
      SessionStatus.pending :: SessionStatus.planning :: SessionStatus.scaffolding ::
        SessionStatus.generating ::
        (((genPhase env pr.plan).2.map fun u => u.status) ++
          [SessionStatus.validating, SessionStatus.completed]) =
      (SessionStatus.pending :: SessionStatus.planning :: SessionStatus.scaffolding ::
        SessionStatus.generating ::
        (((genPhase env pr.plan).2.map fun u => u.status) ++
          [SessionStatus.validating])) ++ [SessionStatus.completed] := by
    simp
  rw [hshape, List.getLast?_concat]

lemma pipelineRun_files_paths (env : PipelineEnv) (maxR : ℕ) (pr : PlanResult)
    (h : env.planOutcome = Outcome.ok pr) :
    ((pipelineRun env maxR).result.files.map fun f => f.path) =
      (((sortFilesByDependency pr.plan.files).filter
          fun s => (env.genOutcome s).toBool).map fun s => s.path) := by
  rw [pipelineRun_ok_result env maxR pr h]
  show (((genPhase env pr.plan).1.map _).map _) = _
  rw [genPhase, generateLoop_files, List.map_map, List.map_map]
  apply List.map_congr_left
  intro s _
  show (validationLoop _ _ _ (genFileOf env.genOutcome s)).1.path = s.path
  rw [validationLoop_path, genFileOf_path]

lemma pipelineRun_files_count (env : PipelineEnv) (maxR : ℕ) (pr : PlanResult)
    (h : env.planOutcome = Outcome.ok pr) :
    (pipelineRun env maxR).result.files.length ≤ pr.plan.files.length := by
  rw [pipelineRun_ok_result env maxR pr h]
  show ((genPhase env pr.plan).1.map _).length ≤ _
  rw [List.length_map, genPhase, generateLoop_files, List.length_map]
  calc ((sortFilesByDependency pr.plan.files).filter
          fun s => (env.genOutcome s).toBool).length
      ≤ (sortFilesByDependency pr.plan.files).length := List.length_filter_le _ _
    _ = pr.plan.files.length := sortFilesByDependency_length _

end MoreHelpers

/-! ## The claims -/

/-- The two-element counterexample plan files for file ordering: a file with
a high explicit priority but no dependencies, and a file without an explicit
priority but five dependencies. -/
def fileA : FileSpec := ⟨"a.ts", "entry", [], some 100⟩

/-- Companion of `fileA`: no explicit priority, five dependencies. -/
def fileB : FileSpec := ⟨"b.ts", "helper", ["d1", "d2", "d3", "d4", "d5"], none⟩

/-- Claim C2, as stated, is false: the comparator compares priorities only
when both files carry one; a priority-100 file with zero dependencies sorts
before a priority-free file with five dependencies, so the generated order
has keys 100, 5 — decreasing. -/
theorem c2_counterexample :
    ¬ List.Pairwise (fun a b => keyOf a ≤ keyOf b)
      (sortFilesByDependency [fileA, fileB]) := by
  decide

/-- Claim C2 (amended): when every file of the plan has an explicit
priority, or none has, the Generate phase's file order is non-decreasing in
the key (explicit priority when present, otherwise dependency-list
length). -/
theorem c2_sorted_when_homogeneous (files : List FileSpec)
    (h : (∀ f ∈ files, f.priority ≠ none) ∨ (∀ f ∈ files, f.priority = none)) :
    List.Pairwise (fun a b => keyOf a ≤ keyOf b) (sortFilesByDependency files) := by
  unfold sortFilesByDependency
  apply pairwise_stableSort
  · intro a ha b hb
    rcases h with hall | hnone
    · obtain ⟨pa, hpa⟩ := Option.ne_none_iff_exists'.mp (hall a ha)
      obtain ⟨pb, hpb⟩ := Option.ne_none_iff_exists'.mp (hall b hb)
      constructor
      · intro hlt
        have hc : fileCompare a b < 0 := of_decide_eq_true hlt
        simp only [fileCompare, hpa, hpb] at hc
        simp only [keyOf, hpa, hpb, Option.getD_some]
        omega
      · intro hge
        have hc : ¬ fileCompare a b < 0 := of_decide_eq_false hge
        simp only [fileCompare, hpa, hpb] at hc
        simp only [keyOf, hpa, hpb, Option.getD_some]
        omega
    · have hpa := hnone a ha
      have hpb := hnone b hb
      constructor
      · intro hlt
        have hc : fileCompare a b < 0 := of_decide_eq_true hlt
        simp only [fileCompare, hpa, hpb] at hc
        simp only [keyOf, hpa, hpb, Option.getD_none]
        omega
      · intro hge
        have hc : ¬ fileCompare a b < 0 := of_decide_eq_false hge
        simp only [fileCompare, hpa, hpb] at hc
        simp only [keyOf, hpa, hpb, Option.getD_none]
        omega
  · intro x y z hxy hyz
    exact le_trans hxy hyz

/-- Witness for the amended C2, at a concrete priority-free plan. -/
theorem c2_sorted_when_homogeneous_witness :
    List.Pairwise (fun a b => keyOf a ≤ keyOf b)
      (sortFilesByDependency
        [⟨"x.ts", "x", ["d1", "d2"], none⟩, ⟨"y.ts", "y", [], none⟩]) :=
  c2_sorted_when_homogeneous _ (Or.inr (by decide))

/-- Claim C3, as stated, is false: because of the JavaScript `filesCount || 5`
default, a request with 0 files is estimated as if it produced 5 output
files, so its token estimate (7500) exceeds the estimate for 1 file
(2000). -/
theorem c3_counterexample :
    ¬ ((estimateCredits "" 0).estimatedTokens ≤
        (estimateCredits "" 1).estimatedTokens) := by
  decide

/-- Claim C3 (amended): for file counts n1, n2 with 1 ≤ n1 ≤ n2 the
estimated tokens and credits are non-decreasing in the file count, and for
any fixed file count they are non-decreasing in the prompt length. -/
theorem c3_estimate_monotone :
    (∀ (prompt : String) (n1 n2 : ℕ), 1 ≤ n1 → n1 ≤ n2 →
      (estimateCredits prompt n1).estimatedTokens ≤
          (estimateCredits prompt n2).estimatedTokens ∧
        (estimateCredits prompt n1).estimatedCredits ≤
          (estimateCredits prompt n2).estimatedCredits) ∧
    (∀ (p1 p2 : String) (n : ℕ), p1.length ≤ p2.length →
      (estimateCredits p1 n).estimatedTokens ≤
          (estimateCredits p2 n).estimatedTokens ∧
        (estimateCredits p1 n).estimatedCredits ≤
          (estimateCredits p2 n).estimatedCredits) := by
  constructor
  · intro prompt n1 n2 h1 h
    have ht := estimatedTokens_mono_files prompt n1 n2 h1 h
    refine ⟨ht, ?_⟩
    rw [estimateCredits_credits, estimateCredits_credits]
    exact creditsFormula_mono _ _ ht
  · intro p1 p2 n h
    have ht := estimatedTokens_mono_prompt p1 p2 n h
    refine ⟨ht, ?_⟩
    rw [estimateCredits_credits, estimateCredits_credits]
    exact creditsFormula_mono _ _ ht

/-- Witness for the amended C3 at concrete inputs. -/
theorem c3_estimate_monotone_witness :
    (estimateCredits "ab" 1).estimatedTokens ≤
        (estimateCredits "ab" 2).estimatedTokens ∧
      (estimateCredits "ab" 1).estimatedCredits ≤
        (estimateCredits "ab" 2).estimatedCredits :=
  c3_estimate_monotone.1 "ab" 1 2 (by decide) (by decide)

/-- Claim C4: the validate-then-fix loop makes at most `maxAttempts`
validation calls (`maxValidationRetries`, default 3); it exits on the first
valid result marking `validated := true`; when every attempt is invalid the
file is retained with its incoming `validated` flag (false for freshly
generated files) and the issue list of the last validation; and a run whose
plan succeeded still finishes with status `completed` regardless of
validation outcomes. -/
theorem c4_validation_loop (validate : ℕ → ValidationRes) (fix : ℕ → FixRes)
    (maxAttempts : ℕ) (file : GeneratedFile) :
    defaultMaxValidationRetries = 3 ∧
    (validationLoop validate fix maxAttempts file).2 ≤ maxAttempts ∧
    (∀ k, 1 ≤ k → k ≤ maxAttempts → (validate k).valid = true →
      (∀ j, 1 ≤ j → j < k → (validate j).valid = false) →
      (validationLoop validate fix maxAttempts file).1.validated = true ∧
        (validationLoop validate fix maxAttempts file).2 = k) ∧
    ((∀ k, 1 ≤ k → k ≤ maxAttempts → (validate k).valid = false) →
      (validationLoop validate fix maxAttempts file).1.validated = file.validated ∧
        (validationLoop validate fix maxAttempts file).2 = maxAttempts ∧
        (1 ≤ maxAttempts →
          (validationLoop validate fix maxAttempts file).1.errors =
            some (validate maxAttempts).issues)) ∧
    (∀ (env : PipelineEnv) (maxR : ℕ) (pr : PlanResult),
      env.planOutcome = Outcome.ok pr →
      (pipelineRun env maxR).result.success = true ∧
        (runStatusTrace env maxR).getLast? = some SessionStatus.completed) := by
  refine ⟨rfl, ?_, ?_, ?_, ?_⟩
  · have h := vloopAux_calls_bounds validate fix maxAttempts 0 file
    simpa [validationLoop] using h.2
  · intro k h1 h2 hvalid hprev
    exact vloopAux_first_valid validate fix maxAttempts 0 file k (by omega)
      (by omega) hvalid (fun j hj1 hj2 => hprev j (by omega) hj2)
  · intro hall
    have h := vloopAux_exhausted validate fix maxAttempts 0 file
      (fun j hj1 hj2 => hall j hj1 (by omega))
    refine ⟨h.1, by simpa [validationLoop] using h.2.1, ?_⟩
    intro hpos
    have h3 := h.2.2
    rw [if_neg (by omega)] at h3
    simpa [validationLoop] using h3
  · intro env maxR pr h
    refine ⟨?_, pipeline_ok_completes env maxR pr h⟩
    rw [pipelineRun_ok_result env maxR pr h]

/-- Concrete validator oracle for the C4 witness: valid on the first
attempt. -/
def validateW : ℕ → ValidationRes := fun _ => ⟨true, [], [], 7, 0⟩

/-- Concrete fixer oracle for the C4 witness. -/
def fixW : ℕ → FixRes := fun _ => ⟨"fixed", 3, 0⟩

/-- Concrete generated file for the C4 witness. -/
def fileW : GeneratedFile := ⟨"w.ts", "code", false, none⟩

/-- Witness for C4: with a first-attempt-valid oracle the loop stops after
one call and marks the file validated. -/
theorem c4_validation_loop_witness :
    (validationLoop validateW fixW 3 fileW).1.validated = true ∧
      (validationLoop validateW fixW 3 fileW).2 = 1 :=
  (c4_validation_loop validateW fixW 3 fileW).2.2.1 1 (by decide) (by decide)
    (by decide) (fun j hj1 hj2 => absurd hj2 (by omega))

/-- The concrete one-file plan used by the C5 counterexample. -/
def planC5 : PlanResult :=
  ⟨⟨"web", "demo", [⟨"a.ts", "entry", [], none⟩], []⟩, 0, 0⟩

/-- A pipeline environment in which everything succeeds and a single file
is generated. -/
def pipeEnvC5 : PipelineEnv :=
  { planOutcome := .ok planC5,
    genOutcome := fun _ => .ok ⟨"code", 0, 0, "m"⟩,
    validateOracle := fun _ _ => ⟨true, [], [], 0, 0⟩,
    fixOracle := fun _ _ => ⟨"", 0, 0⟩,
    suggestOutcome := .ok [],
    now := "t0" }

/-- Claim C5, as stated, is false: the Generate phase writes a `generating`
progress update after every successfully generated file, so a successful
run over one file writes the status sequence
pending, planning, scaffolding, generating, generating, validating,
completed — not the six-element sequence of the claim. -/
theorem c5_counterexample :
    runStatusTrace pipeEnvC5 3 ≠
      [SessionStatus.pending, SessionStatus.planning, SessionStatus.scaffolding,
        SessionStatus.generating, SessionStatus.validating,
        SessionStatus.completed] := by
  decide

/-- Claim C5 (amended): over any run whose plan call succeeds, the status
write sequence with consecutive duplicates collapsed is exactly
pending, planning, scaffolding, generating, validating, completed: no state
is skipped and no state is written again after a later state. -/
theorem c5_status_sequence (env : PipelineEnv) (maxR : ℕ) (pr : PlanResult)
    (h : env.planOutcome = Outcome.ok pr) :
    collapseDups (runStatusTrace env maxR) =
      [SessionStatus.pending, SessionStatus.planning, SessionStatus.scaffolding,
        SessionStatus.generating, SessionStatus.validating,
        SessionStatus.completed] := by
  rw [runStatusTrace_ok env maxR pr h]
  rw [collapseDups_cons_ne SessionStatus.pending SessionStatus.planning _ (by decide)]
  rw [collapseDups_cons_ne SessionStatus.planning SessionStatus.scaffolding _ (by decide)]
  rw [collapseDups_cons_ne SessionStatus.scaffolding SessionStatus.generating _ (by decide)]
  have hg : ∀ s ∈ ((genPhase env pr.plan).2.map fun u => u.status),
      s = SessionStatus.generating := by
    rw [genPhase]
    exact generateLoop_write_statuses env.genOutcome env.now
      (sortFilesByDependency pr.plan.files) 0
  rw [collapseDups_gen_suffix _ hg]

/-- Witness for the amended C5 at the concrete one-file environment. -/
theorem c5_status_sequence_witness :
    collapseDups (runStatusTrace pipeEnvC5 3) =
      [SessionStatus.pending, SessionStatus.planning, SessionStatus.scaffolding,
        SessionStatus.generating, SessionStatus.validating,
        SessionStatus.completed] :=
  c5_status_sequence pipeEnvC5 3 planC5 rfl

/-- Claim C7: a failure while generating a single file is caught at file
granularity: the produced files are exactly the successfully generated
specs, in sorted order; the run still reaches `completed`; and the final
file count never exceeds the planned count (and is smaller whenever a file
failed). -/
theorem c7_per_file_failure_skipped (env : PipelineEnv) (maxR : ℕ)
    (pr : PlanResult) (h : env.planOutcome = Outcome.ok pr) :
    ((pipelineRun env maxR).result.files.map fun f => f.path) =
      (((sortFilesByDependency pr.plan.files).filter
          fun s => (env.genOutcome s).toBool).map fun s => s.path) ∧
    (pipelineRun env maxR).result.success = true ∧
    (runStatusTrace env maxR).getLast? = some SessionStatus.completed ∧
    (pipelineRun env maxR).result.files.length ≤ pr.plan.files.length := by
  refine ⟨pipelineRun_files_paths env maxR pr h, ?_,
    pipeline_ok_completes env maxR pr h, pipelineRun_files_count env maxR pr h⟩
  rw [pipelineRun_ok_result env maxR pr h]

/-- The concrete two-file plan of the C7 witness. -/
def planC7 : PlanResult :=
  ⟨⟨"web", "demo",
    [⟨"a.ts", "entry", [], none⟩, ⟨"b.ts", "helper", ["a.ts"], none⟩], []⟩, 0, 0⟩

/-- A pipeline environment in which generating `b.ts` fails and everything
else succeeds. -/
def pipeEnvC7 : PipelineEnv :=
  { planOutcome := .ok planC7,
    genOutcome := fun s => if s.path = "b.ts" then .err ⟨"boom"⟩
      else .ok ⟨"code", 0, 0, "m"⟩,
    validateOracle := fun _ _ => ⟨true, [], [], 0, 0⟩,
    fixOracle := fun _ _ => ⟨"", 0, 0⟩,
    suggestOutcome := .ok [],
    now := "t0" }

/-- Witness for C7: of two planned files one fails; the run completes with
one file — fewer than `files_planned`. -/
theorem c7_per_file_failure_skipped_witness :
    ((pipelineRun pipeEnvC7 3).result.files.map fun f => f.path) =
      (((sortFilesByDependency planC7.plan.files).filter
          fun s => (pipeEnvC7.genOutcome s).toBool).map fun s => s.path) ∧
      (runStatusTrace pipeEnvC7 3).getLast? = some SessionStatus.completed ∧
      (pipelineRun pipeEnvC7 3).result.files.length = 1 ∧
      planC7.plan.files.length = 2 := by
  have h := c7_per_file_failure_skipped pipeEnvC7 3 planC7 rfl
  exact ⟨h.1, h.2.2.1, by decide, by decide⟩

/-- Claim C1: per candidate, `executeWithProvider` makes at most
`retryCount + 1` attempts (default retryCount = 2); an attempt beyond the
first happens only after a rate-limit-classified failure; the delay awaited
after the (1-based) k-th attempt is `retryDelayMs * k`; a non-rate-limit
failure ends the candidate immediately, rethrowing that error; and
`execute` then advances to the fallback candidate when one is configured
and available. -/
theorem c1_retry_policy :
    defaultRetryCount = 2 ∧
    (∀ (oracle : ℕ → AttemptResult) (provider : AIProvider) (model : String)
        (retryCount retryDelayMs : ℕ) (res : ExecResult) (tr : CandidateTrace),
      executeWithProvider oracle provider model retryCount retryDelayMs = (res, tr) →
      (tr.attemptsMade ≤ retryCount + 1) ∧
        (∀ i, i + 1 < tr.attemptsMade →
          ∃ e, oracle i = .failure e ∧ isRateLimitError e = true) ∧
        (∀ j (hj : j < tr.delays.length),
          tr.delays.get ⟨j, hj⟩ = retryDelayMs * (j + 1)) ∧
        tr.attemptsMade ≤ tr.delays.length + 1 ∧
        (∀ i e, i < tr.attemptsMade → oracle i = .failure e →
          isRateLimitError e = false →
          tr.attemptsMade = i + 1 ∧ res = .thrown e)) ∧
    (∀ (env : ExecEnv) (retryCount retryDelayMs : ℕ) (task : TaskType)
        (e : ThrownError) (tr : CandidateTrace) (fb : Candidate),
      isProviderAvailable env.keys (ModelRouting task).provider = true →
      executeWithProvider
          (env.call (ModelRouting task).provider (ModelRouting task).model)
          (ModelRouting task).provider (ModelRouting task).model
          retryCount retryDelayMs = (.thrown e, tr) →
      (ModelRouting task).fallback = some fb →
      isProviderAvailable env.keys fb.provider = true →
      execute env retryCount retryDelayMs task =
        ((executeWithProvider (env.call fb.provider fb.model) fb.provider
            fb.model retryCount retryDelayMs).1,
          [(⟨(ModelRouting task).provider, (ModelRouting task).model⟩, tr),
            (fb, (executeWithProvider (env.call fb.provider fb.model)
              fb.provider fb.model retryCount retryDelayMs).2)])) := by
  refine ⟨rfl, ?_, ?_⟩
  · intro oracle provider model retryCount retryDelayMs res tr heq
    have hres : res = (executeWithProvider oracle provider model retryCount retryDelayMs).1 := by
      rw [heq]
    have htr : tr = (executeWithProvider oracle provider model retryCount retryDelayMs).2 := by
      rw [heq]
    subst hres
    subst htr
    have hbounds := ewpAux_attempts_bounds oracle provider model retryDelayMs
      (retryCount + 1) 0 none []
    have hdel := ewpAux_delays oracle provider model retryDelayMs
      (retryCount + 1) 0 none [] rfl (fun j hj => absurd hj (by simp))
    refine ⟨?_, ?_, ?_, ?_, ?_⟩
    · simp only [executeWithProvider]
      omega
    · intro i hlt
      simp only [executeWithProvider] at hlt
      exact ewpAux_retry_only_rate_limit oracle provider model retryDelayMs
        (retryCount + 1) 0 none [] i (Nat.zero_le i) hlt
    · intro j hj
      exact hdel.1 j hj
    · exact hdel.2.1
    · intro i e hi hfail hrl
      simp only [executeWithProvider] at hi ⊢
      exact ewpAux_nonrl_aborts oracle provider model retryDelayMs
        (retryCount + 1) 0 none [] i e (Nat.zero_le i) hi hfail hrl
  · intro env retryCount retryDelayMs task e tr fb hav heq hfb hfav
    rw [execute_of_avail_thrown env retryCount retryDelayMs task hav e tr heq,
      fallbackStep_of_avail env retryCount retryDelayMs task (ModelRouting task)
        _ fb hfb hfav]
    simp

/-- Concrete attempt oracle for the engine witnesses: two rate-limit
failures, then success. -/
def oracleW : ℕ → AttemptResult := fun n =>
  if n = 0 then .failure ⟨"429"⟩
  else if n = 1 then .failure ⟨"Rate limit exceeded"⟩
  else .success ⟨"hi", 10, 20, 30⟩

/-- Concrete execution environment: all keys present, every candidate's
calls follow `oracleW`. -/
def execEnvW : ExecEnv := { keys := ⟨true, true, true⟩, call := fun _ _ => oracleW }

/-- Witness for C1 at the concrete oracle. -/
theorem c1_retry_policy_witness :
    (executeWithProvider oracleW .grok "m" 2 1000).2.attemptsMade ≤ 2 + 1 :=
  (c1_retry_policy.2.1 oracleW .grok "m" 2 1000
    (executeWithProvider oracleW .grok "m" 2 1000).1
    (executeWithProvider oracleW .grok "m" 2 1000).2 rfl).1

/-- Claim C9: if the primary candidate rate-limits twice and succeeds on
the third attempt (with the default retryCount = 2), `execute` succeeds
with the primary candidate's provider and model, never touching the
fallback; the two awaited delays are one and two base delays. -/
theorem c9_primary_retry_success (env : ExecEnv) (retryDelayMs : ℕ)
    (task : TaskType) (e0 e1 : ThrownError) (out : ProviderCallOut)
    (hav : isProviderAvailable env.keys (ModelRouting task).provider = true)
    (h0 : env.call (ModelRouting task).provider (ModelRouting task).model 0 =
      .failure e0)
    (hrl0 : isRateLimitError e0 = true)
    (h1 : env.call (ModelRouting task).provider (ModelRouting task).model 1 =
      .failure e1)
    (hrl1 : isRateLimitError e1 = true)
    (h2 : env.call (ModelRouting task).provider (ModelRouting task).model 2 =
      .success out) :
    execute env defaultRetryCount retryDelayMs task =
      (.ok (mkResponse (ModelRouting task).provider (ModelRouting task).model out),
        [(⟨(ModelRouting task).provider, (ModelRouting task).model⟩,
          ⟨3, [retryDelayMs * 1, retryDelayMs * 2]⟩)]) := by
  have hd : defaultRetryCount = 2 := rfl
  rw [hd]
  have hewp : executeWithProvider
      (env.call (ModelRouting task).provider (ModelRouting task).model)
      (ModelRouting task).provider (ModelRouting task).model 2 retryDelayMs =
      (.ok (mkResponse (ModelRouting task).provider (ModelRouting task).model out),
        ⟨3, [retryDelayMs * 1, retryDelayMs * 2]⟩) := by
    show executeWithProviderAux _ _ _ _ 3 0 none [] = _
    rw [ewpAux_succ_rl _ _ _ _ h0 hrl0, ewpAux_succ_rl _ _ _ _ h1 hrl1,
      ewpAux_succ_success _ _ _ _ h2]
    norm_num
  exact execute_of_avail_ok env 2 retryDelayMs task hav _ _ hewp

/-- Witness for C9 at the concrete oracle. -/
theorem c9_primary_retry_success_witness :
    execute execEnvW defaultRetryCount 1000 .coding =
      (.ok (mkResponse (ModelRouting .coding).provider
          (ModelRouting .coding).model ⟨"hi", 10, 20, 30⟩),
        [(⟨(ModelRouting .coding).provider, (ModelRouting .coding).model⟩,
          ⟨3, [1000 * 1, 1000 * 2]⟩)]) :=
  c9_primary_retry_success execEnvW 1000 .coding ⟨"429"⟩ ⟨"Rate limit exceeded"⟩
    ⟨"hi", 10, 20, 30⟩ (by decide) rfl (by decide) rfl (by decide) rfl

/-- Claim C10: `execute` attempts at most two candidates; every attempted
candidate is the routing primary or the configured fallback; and when the
primary provider lacks credentials it is skipped without consuming any
attempt — only the fallback can appear in the log. -/
theorem c10_candidate_chain (env : ExecEnv) (retryCount retryDelayMs : ℕ)
    (task : TaskType) :
    (execute env retryCount retryDelayMs task).2.length ≤ 2 ∧
    (∀ c ∈ (execute env retryCount retryDelayMs task).2,
      c.1 = ⟨(ModelRouting task).provider, (ModelRouting task).model⟩ ∨
        (ModelRouting task).fallback = some c.1) ∧
    (isProviderAvailable env.keys (ModelRouting task).provider = false →
      ∀ c ∈ (execute env retryCount retryDelayMs task).2,
        (ModelRouting task).fallback = some c.1) := by
  refine ⟨?_, ?_, ?_⟩
  · rcases execute_log_shape env retryCount retryDelayMs task with
      h | ⟨tr, h⟩ | ⟨fb, tr, hf, h⟩ | ⟨tr, fb, tr2, hf, h⟩ <;> rw [h] <;> simp
  · intro c hc
    rcases execute_log_shape env retryCount retryDelayMs task with
      h | ⟨tr, h⟩ | ⟨fb, tr, hf, h⟩ | ⟨tr, fb, tr2, hf, h⟩ <;> rw [h] at hc
    · simp at hc
    · rw [List.mem_singleton] at hc
      subst hc
      left
      rfl
    · rw [List.mem_singleton] at hc
      subst hc
      right
      exact hf
    · rcases List.mem_cons.mp hc with hc | hc
      · subst hc
        left
        rfl
      · rw [List.mem_singleton] at hc
        subst hc
        right
        exact hf
  · intro hp c hc
    rcases execute_log_of_unavail env retryCount retryDelayMs task hp with
      h | ⟨fb, tr, hf, h⟩ <;> rw [h] at hc
    · simp at hc
    · rw [List.mem_singleton] at hc
      subst hc
      exact hf

/-- Witness for C10 at the concrete environment. -/
theorem c10_candidate_chain_witness :
    (execute execEnvW 2 1000 .coding).2.length ≤ 2 :=
  (c10_candidate_chain execEnvW 2 1000 .coding).1

/-- Execution environment of the C6 counterexample: every provider call
fails with a non-rate-limit 503 error, so every candidate chain is
exhausted. -/
def execEnvC6 : ExecEnv :=
  { keys := ⟨true, true, true⟩,
    call := fun _ _ _ => .failure ⟨"503 Service Unavailable"⟩ }

/-- The one-file plan of the C6 counterexample. -/
def planC6 : PlanResult :=
  ⟨⟨"web", "demo", [⟨"a.ts", "entry", [], none⟩], []⟩, 0, 0⟩

/-- Pipeline environment of the C6 counterexample: the Generate-phase call
for the single file rejects with the provider-exhaustion error that
`execute` produces under `execEnvC6`. -/
def pipeEnvC6 : PipelineEnv :=
  { planOutcome := .ok planC6,
    genOutcome := fun _ => .err ⟨"503 Service Unavailable"⟩,
    validateOracle := fun _ _ => ⟨true, [], [], 0, 0⟩,
    fixOracle := fun _ _ => ⟨"", 0, 0⟩,
    suggestOutcome := .ok [],
    now := "t0" }

/-- Claim C6, as stated, is false: `execute` does rethrow the last observed
provider error when both candidates fail, but when that failure reaches
the per-file Generate phase it is caught there — the run still ends
`completed`, not `failed`. -/
theorem c6_counterexample :
    (execute execEnvC6 2 1000 .coding).1 = .thrown ⟨"503 Service Unavailable"⟩ ∧
      (runStatusTrace pipeEnvC6 3).getLast? = some SessionStatus.completed ∧
      SessionStatus.completed ≠ SessionStatus.failed := by
  refine ⟨by decide, by decide, by decide⟩

/-- Claim C6 (amended): when the primary and fallback candidates are both
attempted and fail, `execute` rethrows the fallback's error, which is the
last observed provider error; and when such a failure reaches the Plan
phase — which has no local catch — the run terminates with status `failed`,
`error_message` set to that error's message and a completion timestamp.
(In the Generate and Suggest phases the error is caught locally and the run
continues.) -/
theorem c6_exhausted_chain :
    (∀ (env : ExecEnv) (retryCount retryDelayMs : ℕ) (task : TaskType)
        (fb : Candidate) (e1 e2 : ThrownError) (tr1 tr2 : CandidateTrace),
      isProviderAvailable env.keys (ModelRouting task).provider = true →
      executeWithProvider
          (env.call (ModelRouting task).provider (ModelRouting task).model)
          (ModelRouting task).provider (ModelRouting task).model
          retryCount retryDelayMs = (.thrown e1, tr1) →
      (ModelRouting task).fallback = some fb →
      isProviderAvailable env.keys fb.provider = true →
      executeWithProvider (env.call fb.provider fb.model) fb.provider fb.model
          retryCount retryDelayMs = (.thrown e2, tr2) →
      (execute env retryCount retryDelayMs task).1 = .thrown e2 ∧
        1 ≤ tr2.attemptsMade ∧
        env.call fb.provider fb.model (tr2.attemptsMade - 1) = .failure e2) ∧
    (∀ (env : PipelineEnv) (maxR : ℕ) (e : ThrownError),
      env.planOutcome = Outcome.err e →
      (pipelineRun env maxR).result.success = false ∧
        ∃ u, (pipelineRun env maxR).trace.getLast? = some u ∧
          u.status = SessionStatus.failed ∧
          u.data.error_message = some e.message ∧
          u.completed_at ≠ none) := by
  constructor
  · intro env retryCount retryDelayMs task fb e1 e2 tr1 tr2 hav heq1 hfb hfav heq2
    have hlast := ewpAux_thrown_last (env.call fb.provider fb.model) fb.provider
      fb.model retryDelayMs (retryCount + 1) 0 none []
      (fun e' h => Option.noConfusion h) (fun _ => by omega) e2 tr2 heq2
    refine ⟨?_, hlast.1, hlast.2⟩
    rw [execute_of_avail_thrown env retryCount retryDelayMs task hav e1 tr1 heq1,
      fallbackStep_of_avail env retryCount retryDelayMs task (ModelRouting task)
        _ fb hfb hfav]
    rw [heq2]
  · intro env maxR e h
    rw [pipelineRun_planErr env maxR e h]
    refine ⟨rfl, ⟨_, rfl, rfl, rfl, ?_⟩⟩
    simp [updateSessionStatus]

/-- Pipeline environment for the C6 witness: the planning call itself
rejects. -/
def pipeEnvC6w : PipelineEnv :=
  { planOutcome := .err ⟨"AllProvidersExhausted"⟩,
    genOutcome := fun _ => .ok ⟨"", 0, 0, "m"⟩,
    validateOracle := fun _ _ => ⟨true, [], [], 0, 0⟩,
    fixOracle := fun _ _ => ⟨"", 0, 0⟩,
    suggestOutcome := .ok [],
    now := "t0" }

/-- Witness for the amended C6: a failed planning call ends the run
`failed` with the error message recorded. -/
theorem c6_exhausted_chain_witness :
    (pipelineRun pipeEnvC6w 3).result.success = false ∧
      ∃ u, (pipelineRun pipeEnvC6w 3).trace.getLast? = some u ∧
        u.status = SessionStatus.failed ∧
        u.data.error_message = some (ThrownError.mk "AllProvidersExhausted").message ∧
        u.completed_at ≠ none :=
  c6_exhausted_chain.2 pipeEnvC6w 3 ⟨"AllProvidersExhausted"⟩ rfl

/-- Claim C8: `updateSessionStatus` includes a completion timestamp exactly
when the written status is `completed` or `failed`; every update a pipeline
run writes satisfies that invariant; and the cancel route's direct update
writes `failed` together with a completion timestamp. -/
theorem c8_completion_timestamp :
    (∀ (st : SessionStatus) (d : SessionUpdateData) (now : String),
      ((updateSessionStatus st d now).completed_at ≠ none ↔
        (st = .completed ∨ st = .failed))) ∧
    (∀ (env : PipelineEnv) (maxR : ℕ) (u : SessionUpdate),
      u ∈ (pipelineRun env maxR).trace →
      (u.completed_at ≠ none ↔
        (u.status = .completed ∨ u.status = .failed))) ∧
    (∀ now : String, (cancelSessionUpdate now).status = .failed ∧
      (cancelSessionUpdate now).completed_at ≠ none) := by
  refine ⟨updateSessionStatus_completedAt, ?_, ?_⟩
  · intro env maxR u hu
    obtain ⟨s, d, rfl⟩ := pipeline_trace_is_updates env maxR u hu
    rw [updateSessionStatus_status]
    exact updateSessionStatus_completedAt s d env.now
  · intro now
    exact ⟨rfl, by simp [cancelSessionUpdate]⟩

/-- Witness for C8 at a concrete terminal and a concrete non-terminal
status. -/
theorem c8_completion_timestamp_witness :
    (updateSessionStatus .completed noData "t0").completed_at ≠ none ∧
      ¬ (updateSessionStatus .generating noData "t0").completed_at ≠ none :=
  ⟨(c8_completion_timestamp.1 .completed noData "t0").mpr (Or.inl rfl),
    fun h => by
      rcases (c8_completion_timestamp.1 .generating noData "t0").mp h with h' | h' <;>
        cases h'⟩

end Buildable
